import Mathlib

/-!
Verification of the pyBTMCP device state synchronization engine.

Shallow embedding of:
- `src/api/device_registry.py` (`DeviceRegistry`): device map with tombstone set;
- `src/api/mqtt_client.py` (`MQTTManager._topic_matches`, `clear_retained`);
- `src/api/hr_variation.py` (`HRVariationManager.set_target`, `_variation_loop`);
- `src/api/main.py` (`ConnectionManager.broadcast`, `handle_device_status`).

Python dicts are modelled as insertion-ordered association lists with unique
keys maintained by the operations; Python values as the inductive `Val`;
timestamps (`datetime.utcnow().isoformat()`) as opaque strings passed in.
-/

namespace PyBTMCP

/-- A Python value as it occurs in device records: `None`, booleans, ints,
strings, and (nested) dicts with string keys. -/
inductive Val where
  | none
  | bool (b : Bool)
  | int (n : Int)
  | str (s : String)
  | dict (entries : List (String × Val))

/-- Python truthiness (`if info:`, `if not ….get("values"):`) for `Val`. -/
def Val.truthy : Val → Bool
  | .none => false
  | .bool b => b
  | .int n => n != 0
  | .str s => !s.isEmpty
  | .dict entries => !entries.isEmpty

/-! ### Association-list model of Python `dict` -/

/-- `d[k]` lookup returning the first binding (`dict.get`). -/
def alGet {β : Type} (d : List (String × β)) (k : String) : Option β :=
  match d with
  | [] => Option.none
  | (k', v) :: rest => if k' = k then some v else alGet rest k

/-- `d[k] = v`: replace the existing binding in place, else append
(Python dict preserves insertion order). -/
def alSet {β : Type} (d : List (String × β)) (k : String) (v : β) : List (String × β) :=
  match d with
  | [] => [(k, v)]
  | (k', v') :: rest => if k' = k then (k', v) :: rest else (k', v') :: alSet rest k v

/-- In-place mutation of the value stored at `k` (no-op when `k` is absent). -/
def alModify {β : Type} (d : List (String × β)) (k : String) (f : β → β) :
    List (String × β) :=
  match d with
  | [] => []
  | (k', v) :: rest => if k' = k then (k', f v) :: rest else (k', v) :: alModify rest k f

/-- `d.pop(k, None)`: drop the binding of `k`. -/
def alPop {β : Type} : List (String × β) → String → List (String × β)
  | [], _ => []
  | (k', v) :: rest, k => if k' = k then alPop rest k else (k', v) :: alPop rest k

/-- A Python dict of `Val`s. -/
abbrev PyDict := List (String × Val)

/-- `d.update(e)`: shallow overwrite of `d` by each binding of `e` in order. -/
def dictUpdate (d e : PyDict) : PyDict :=
  e.foldl (fun acc kv => alSet acc kv.1 kv.2) d

/-! ### `DeviceRegistry` (src/api/device_registry.py) -/

/-- Registry state: `_devices` (id → record) and `_deleted_devices`
(tombstones, a Python `set` modelled as a duplicate-free list). -/
structure DeviceRegistry where
  devices : List (String × PyDict)
  deleted : List String

/-- `DeviceRegistry.__init__`. -/
def DeviceRegistry.init : DeviceRegistry := ⟨[], []⟩

/-- The fresh record built by `register_device` for a first-time id. -/
def newRecord (deviceId now : String) : PyDict :=
  [("id", .str deviceId), ("type", .none), ("values", .dict []),
   ("online", .bool true), ("first_seen", .str now), ("last_seen", .str now)]

/-- `DeviceRegistry.register_device(device_id, info)`; `now` stands for
`datetime.utcnow().isoformat()`. Returns the accepted flag and the new state. -/
def registerDevice (now deviceId : String) (info : Option PyDict)
    (r : DeviceRegistry) : Bool × DeviceRegistry :=
  if deviceId ∈ r.deleted then (false, r)
  else
    let devices1 :=
      match alGet r.devices deviceId with
      | Option.none => alSet r.devices deviceId (newRecord deviceId now)
      | some _ =>
          alModify r.devices deviceId
            (fun rec => alSet (alSet rec "last_seen" (.str now)) "online" (.bool true))
    let devices2 :=
      match info with
      | some i =>
          if i.isEmpty then devices1
          else alModify devices1 deviceId (fun rec => dictUpdate rec i)
      | Option.none => devices1
    (true, { devices := devices2, deleted := r.deleted })

/-- `isinstance(value, dict)`. -/
def Val.isDict : Val → Bool
  | .dict _ => true
  | _ => false

/-- The entries of a dict value (unused default for non-dicts). -/
def Val.entriesD : Val → PyDict
  | .dict e => e
  | _ => []

/-- The record `register_device` holds for `deviceId` just before the `info`
merge: a fresh record on first registration, otherwise the stored record with
`last_seen` and `online` restamped. -/
def registerBase (now deviceId : String) (r : DeviceRegistry) : PyDict :=
  match alGet r.devices deviceId with
  | Option.none => newRecord deviceId now
  | some rec => alSet (alSet rec "last_seen" (Val.str now)) "online" (Val.bool true)

/-- One iteration of `update_device`'s `for key, value in updates.items()` loop
applied to a record. `.error` is the state at which Python would raise
(`AttributeError`: `.update` called on a truthy non-dict `values`). -/
def applyUpdateEntry (rec : PyDict) (k : String) (v : Val) : Except PyDict PyDict :=
  if k = "values" ∧ v.isDict = true then
    let falsy :=
      match alGet rec "values" with
      | Option.none => true
      | some cur => !cur.truthy
    let rec1 := if falsy then alSet rec "values" (Val.dict []) else rec
    match alGet rec1 "values" with
    | some (Val.dict cur) => .ok (alSet rec1 "values" (Val.dict (dictUpdate cur v.entriesD)))
    | _ => .error rec1
  else .ok (alSet rec k v)

/-- The full update loop over the entries of `updates`, stopping at a raise. -/
def applyUpdates (rec : PyDict) (updates : PyDict) : Except PyDict PyDict :=
  match updates with
  | [] => .ok rec
  | (k, v) :: rest =>
      match applyUpdateEntry rec k v with
      | .ok rec' => applyUpdates rec' rest
      | .error rec' => .error rec'

/-- Outcome of `update_device`: a normal return with the accepted flag, or an
uncaught exception; both carry the registry state left behind. -/
inductive UpdateResult where
  | ret (accepted : Bool) (r : DeviceRegistry)
  | raised (r : DeviceRegistry)

/-- The registry state after `update_device`, whether it returned or raised. -/
def UpdateResult.registry : UpdateResult → DeviceRegistry
  | .ret _ r => r
  | .raised r => r

/-- `DeviceRegistry.update_device(device_id, updates)`. -/
def updateDevice (now deviceId : String) (updates : PyDict)
    (r : DeviceRegistry) : UpdateResult :=
  let step : Option DeviceRegistry :=
    match alGet r.devices deviceId with
    | some _ => some r
    | Option.none =>
        let res := registerDevice now deviceId Option.none r
        if res.1 then some res.2 else Option.none
  match step with
  | Option.none => .ret false r
  | some r1 =>
      match alGet r1.devices deviceId with
      | Option.none => .ret false r1
      | some rec =>
          match applyUpdates rec updates with
          | .ok rec' =>
              .ret true
                { r1 with devices := alSet r1.devices deviceId (alSet rec' "last_seen" (.str now)) }
          | .error rec' =>
              .raised { r1 with devices := alSet r1.devices deviceId rec' }

/-- `DeviceRegistry.mark_offline(device_id)`. -/
def markOffline (deviceId : String) (r : DeviceRegistry) : DeviceRegistry :=
  match alGet r.devices deviceId with
  | some _ =>
      { r with devices := alModify r.devices deviceId (fun rec => alSet rec "online" (.bool false)) }
  | Option.none => r

/-- `DeviceRegistry.remove_device(device_id)`: pop the record and add the
tombstone (`set.add`: no duplicate). -/
def removeDevice (deviceId : String) (r : DeviceRegistry) : DeviceRegistry :=
  { devices := alPop r.devices deviceId,
    deleted := if deviceId ∈ r.deleted then r.deleted else r.deleted ++ [deviceId] }

/-- `DeviceRegistry.is_deleted(device_id)`. -/
def isDeleted (deviceId : String) (r : DeviceRegistry) : Bool :=
  deviceId ∈ r.deleted

/-- `DeviceRegistry.clear_deleted(device_id)` (`set.discard`). -/
def clearDeleted (deviceId : String) (r : DeviceRegistry) : DeviceRegistry :=
  { r with deleted := r.deleted.filter (fun d => !(d == deviceId)) }

/-- `DeviceRegistry.clear_all_deleted()`. -/
def clearAllDeleted (r : DeviceRegistry) : DeviceRegistry :=
  { r with deleted := [] }

/-! ### Operation language over the registry (for sequence claims) -/

/-- One registry operation, with its timestamp argument where the Python
method reads the clock. -/
inductive Op where
  | register (now deviceId : String) (info : Option PyDict)
  | update (now deviceId : String) (updates : PyDict)
  | markOffline (deviceId : String)
  | remove (deviceId : String)
  | clearDeleted (deviceId : String)
  | clearAllDeleted

/-- Apply one operation, keeping whatever state it leaves behind. -/
def applyOp (r : DeviceRegistry) : Op → DeviceRegistry
  | .register now deviceId info => (registerDevice now deviceId info r).2
  | .update now deviceId updates => (updateDevice now deviceId updates r).registry
  | .markOffline deviceId => markOffline deviceId r
  | .remove deviceId => removeDevice deviceId r
  | .clearDeleted deviceId => clearDeleted deviceId r
  | .clearAllDeleted => clearAllDeleted r

/-- Run an operation sequence from the fresh registry. -/
def runOps (ops : List Op) : DeviceRegistry :=
  ops.foldl applyOp DeviceRegistry.init

/-- The registry invariant: no id is both a device-map key and tombstoned. -/
def RegInv (r : DeviceRegistry) : Prop :=
  ∀ d : String, (alGet r.devices d).isSome → d ∉ r.deleted

/-! ### Topic matcher (src/api/mqtt_client.py, `MQTTManager._topic_matches`) -/

/-- Split a character list at a separator; `splitSeg sep [] = [[]]` matches
Python's `"".split(sep) == [""]`. -/
def splitSeg (sep : Char) : List Char → List (List Char)
  | [] => [[]]
  | c :: rest =>
      let r := splitSeg sep rest
      if c = sep then [] :: r
      else match r with
        | h :: t => (c :: h) :: t
        | [] => [[c]]

/-- Python `s.split("/")`. -/
def splitSlash (s : String) : List String :=
  (splitSeg '/' s.data).map (fun cs => String.mk cs)

/-- The `for p, t in zip(pattern_parts, topic_parts)` loop: `#` short-circuits
to a match, a literal mismatch (not `+`) fails, loop exhaustion matches. -/
def zipMatch : List String → List String → Bool
  | p :: ps, t :: ts =>
      if p = "#" then true
      else if p ≠ "+" ∧ p ≠ t then false
      else zipMatch ps ts
  | _, _ => true

/-- `MQTTManager._topic_matches(pattern, topic)`. -/
def topicMatches (pattern topic : String) : Bool :=
  let patternParts := splitSlash pattern
  let topicParts := splitSlash topic
  if patternParts.length ≠ topicParts.length ∧ "#" ∉ patternParts then false
  else zipMatch patternParts topicParts

/-! ### `clear_retained` (src/api/mqtt_client.py) -/

/-- Transport bridge connection state: `self._connected` and
`self.client is not None`. -/
structure BridgeState where
  connected : Bool
  hasClient : Bool

/-- A message handed to the underlying `client.publish`:
(topic, payload, retain flag). -/
structure PublishedMsg where
  topic : String
  payload : String
  retain : Bool

/-- `MQTTManager.clear_retained(topic)`. `publishOutcome` is the behaviour of
the underlying `await self.client.publish(topic, "", retain=True)` call:
`.ok ()` when it succeeds, `.error e` when it raises `e`. The result is the
list of messages actually published, or the uncaught exception: the method
body has no `try`/`except`, so a raise from `client.publish` propagates. -/
def clearRetained (st : BridgeState) (topic : String)
    (publishOutcome : Except String Unit) : Except String (List PublishedMsg) :=
  if ¬ st.connected ∨ ¬ st.hasClient then .ok []
  else
    match publishOutcome with
    | .ok _ => .ok [⟨topic, "", true⟩]
    | .error e => .error e

/-! ### HR variation (src/api/hr_variation.py) -/

/-- `HRDeviceState` minus the task handle (pure data only; the asyncio task is
scheduling state with no bearing on the per-call value claims). -/
structure HRDeviceState where
  target : Int
  floatHR : ℚ
  phase : ℚ
  enabled : Bool

/-- `HRVariationManager.set_target(device_id, target)`. `freshPhase` stands
for the pseudo-random phase `random.random() * math.pi * 2` a newly created
state would get. Returns the new device map and the list of values passed to
`_send_hr` during the call. -/
def setTarget (devs : List (String × HRDeviceState)) (freshPhase : ℚ)
    (deviceId : String) (target : Int) :
    List (String × HRDeviceState) × List Int :=
  let devs1 :=
    match alGet devs deviceId with
    | Option.none =>
        alSet devs deviceId
          { target := target, floatHR := (target : ℚ), phase := freshPhase, enabled := false }
    | some st => alSet devs deviceId { st with target := target }
  match alGet devs1 deviceId with
  | some st => if st.enabled then (devs1, []) else (devs1, [target])
  | Option.none => (devs1, [])

/-- Python `round` (banker's rounding: nearest integer, ties to even),
on exact rationals. -/
def pyRound (x : ℚ) : Int :=
  let f := ⌊x⌋
  if x - f < 1/2 then f
  else if x - f > 1/2 then f + 1
  else if f % 2 = 0 then f else f + 1

/-- `max(30, min(220, x))`. -/
def clampHR (x : ℚ) : ℚ := max 30 (min 220 x)

/-- The per-tick output of `_variation_loop`: new phase, new tracked float,
the rounded candidate `current_hr`, and whether `_send_hr` fires. -/
structure TickOut where
  phase : ℚ
  floatHR : ℚ
  currentHR : Int
  emit : Bool

/-- One iteration of `HRVariationManager._variation_loop`'s `while` body, over
exact rationals. `sinQ` abstracts `math.sin`; `rand` is the tick's
`random.random()` sample; `lastSent` is the loop-local `last_sent`
(`Option.none` before the first emission). -/
def variationTick (sinQ : ℚ → ℚ) (target : Int) (floatHR phase rand : ℚ)
    (lastSent : Option Int) : TickOut :=
  let phase1 := phase + 2/10
  let sineVariation := sinQ phase1 * 2
  let randomWalk := (rand - 5/10) * (6/10)
  let idealHR := (target : ℚ) + sineVariation + randomWalk
  let distance := |idealHR - floatHR|
  let floatHR1 :=
    if distance > 3 then floatHR + (if idealHR > floatHR then (1 : ℚ) else -1)
    else floatHR + (idealHR - floatHR) * (2/10)
  let currentHR := pyRound (clampHR floatHR1)
  { phase := phase1, floatHR := floatHR1, currentHR := currentHR,
    emit := some currentHR ≠ lastSent }

/-! ### WebSocket fan-out (src/api/main.py, `ConnectionManager`) -/

/-- `ConnectionManager.disconnect(websocket)`: remove the first occurrence if
present (`if websocket in active: active.remove(websocket)`). -/
def wsDisconnect {α : Type} [DecidableEq α] (conns : List α) (c : α) : List α :=
  if c ∈ conns then conns.erase c else conns

/-- `ConnectionManager.broadcast(message)`. `ok c` tells whether
`c.send_json(message)` succeeds (the `try`/`except` body). Returns the list
of connections a send was attempted on, in order, and the connection list
after the post-round cleanup of failed connections. -/
def broadcastRound {α : Type} [DecidableEq α] (conns : List α) (ok : α → Bool) :
    List α × List α :=
  let disconnected := conns.filter (fun c => !ok c)
  (conns, disconnected.foldl (fun acc c => wsDisconnect acc c) conns)

/-! ### Inbound status handler (src/api/main.py, `handle_device_status`) -/

/-- The `update_data` dict the status handler builds from a decoded payload. -/
def statusUpdateData (data : PyDict) : PyDict :=
  [("online", (alGet data "online").getD (.bool true)),
   ("type", (alGet data "type").getD .none),
   ("ble_started", (alGet data "ble_started").getD (.bool false)),
   ("ip", (alGet data "ip").getD .none),
   ("firmware_version", (alGet data "firmware_version").getD .none)]

/-- `handle_device_status(topic, payload)` for a payload that decoded to
`data`, acting on the registry. `now1`/`now2` are the two `utcnow()` reads
inside `register_device` and `update_device`. The broadcast step reads but
does not change the registry and is omitted. -/
def handleDeviceStatus (now1 now2 : String) (topic : String) (data : PyDict)
    (r : DeviceRegistry) : DeviceRegistry :=
  match splitSlash topic with
  | _ :: deviceId :: _ =>
      let r1 := (registerDevice now1 deviceId Option.none r).2
      (updateDevice now2 deviceId (statusUpdateData data) r1).registry
  | _ => r

/-! ## Lemmas about the association-list dict model -/

lemma alGet_alSet_self {β : Type} (d : List (String × β)) (k : String) (v : β) :
    alGet (alSet d k v) k = some v := by
  induction d with
  | nil => simp [alSet, alGet]
  | cons kv rest ih =>
      by_cases h : kv.1 = k
      · simp [alSet, alGet, h]
      · simp [alSet, alGet, h, ih]

lemma alGet_alSet_ne {β : Type} (d : List (String × β)) (k k' : String) (v : β)
    (h : k' ≠ k) : alGet (alSet d k v) k' = alGet d k' := by
  have h2 : ¬ k = k' := fun hh => h hh.symm
  induction d with
  | nil => simp [alSet, alGet, h2]
  | cons kv rest ih =>
      by_cases hk : kv.1 = k
      · subst hk
        simp [alSet, alGet, h2]
      · simp [alSet, alGet, hk, ih]

lemma alGet_alModify_self {β : Type} (d : List (String × β)) (k : String) (f : β → β) :
    alGet (alModify d k f) k = (alGet d k).map f := by
  induction d with
  | nil => simp [alModify, alGet]
  | cons kv rest ih =>
      by_cases h : kv.1 = k
      · simp [alModify, alGet, h]
      · simp [alModify, alGet, h, ih]

lemma alGet_alModify_ne {β : Type} (d : List (String × β)) (k k' : String) (f : β → β)
    (h : k' ≠ k) : alGet (alModify d k f) k' = alGet d k' := by
  have h2 : ¬ k = k' := fun hh => h hh.symm
  induction d with
  | nil => simp [alModify, alGet]
  | cons kv rest ih =>
      by_cases hk : kv.1 = k
      · subst hk
        simp [alModify, alGet, h2]
      · simp [alModify, alGet, hk, ih]

lemma alGet_alPop_self {β : Type} (d : List (String × β)) (k : String) :
    alGet (alPop d k) k = Option.none := by
  induction d with
  | nil => simp [alPop, alGet]
  | cons kv rest ih =>
      by_cases h : kv.1 = k
      · simpa [alPop, h] using ih
      · simp [alPop, alGet, h, ih]

lemma alGet_alPop_ne {β : Type} (d : List (String × β)) (k k' : String)
    (h : k' ≠ k) : alGet (alPop d k) k' = alGet d k' := by
  have h2 : ¬ k = k' := fun hh => h hh.symm
  induction d with
  | nil => simp [alPop, alGet]
  | cons kv rest ih =>
      by_cases hk : kv.1 = k
      · subst hk
        simp [alPop, alGet, h2, ih]
      · simp [alPop, alGet, hk, ih]

/-- A key of `alSet d k v` is an old key or `k` itself. -/
lemma alGet_alSet_isSome {β : Type} (d : List (String × β)) (k k' : String) (v : β)
    (h : (alGet (alSet d k v) k').isSome) : (alGet d k').isSome ∨ k' = k := by
  by_cases hk : k' = k
  · exact Or.inr hk
  · rw [alGet_alSet_ne d k k' v hk] at h
    exact Or.inl h

lemma alGet_alModify_isSome {β : Type} (d : List (String × β)) (k k' : String) (f : β → β)
    (h : (alGet (alModify d k f) k').isSome) : (alGet d k').isSome := by
  by_cases hk : k' = k
  · subst hk
    rw [alGet_alModify_self] at h
    simpa using h
  · rwa [alGet_alModify_ne d k k' f hk] at h

lemma alGet_alPop_isSome {β : Type} (d : List (String × β)) (k k' : String)
    (h : (alGet (alPop d k) k').isSome) : (alGet d k').isSome ∧ k' ≠ k := by
  by_cases hk : k' = k
  · subst hk
    rw [alGet_alPop_self] at h
    simp at h
  · rw [alGet_alPop_ne d k k' hk] at h
    exact ⟨h, hk⟩

/-! ## Lemmas about the registry operations -/

lemma registerDevice_of_deleted {now deviceId : String} {info : Option PyDict}
    {r : DeviceRegistry} (h : deviceId ∈ r.deleted) :
    registerDevice now deviceId info r = (false, r) := by
  simp [registerDevice, h]

lemma registerDevice_deleted (now deviceId : String) (info : Option PyDict)
    (r : DeviceRegistry) : (registerDevice now deviceId info r).2.deleted = r.deleted := by
  unfold registerDevice
  by_cases h : deviceId ∈ r.deleted <;> simp [h]

lemma registerDevice_keys (now deviceId : String) (info : Option PyDict)
    (r : DeviceRegistry) (d : String)
    (h : (alGet (registerDevice now deviceId info r).2.devices d).isSome) :
    (alGet r.devices d).isSome ∨ (d = deviceId ∧ deviceId ∉ r.deleted) := by
  unfold registerDevice at h
  by_cases hdel : deviceId ∈ r.deleted
  · simp [hdel] at h
    exact Or.inl h
  · simp only [hdel, if_false, if_neg] at h
    by_cases hd : d = deviceId
    · exact Or.inr ⟨hd, hdel⟩
    · left
      revert h
      cases hg : alGet r.devices deviceId <;>
        cases info with
        | none =>
            intro h
            · simp only [hg] at h
              first
              | exact (alGet_alSet_isSome _ _ _ _ h).resolve_right hd
              | exact alGet_alModify_isSome _ _ _ _ h
        | some i =>
            intro h
            · simp only [hg] at h
              by_cases hi : i.isEmpty <;> simp only [hi, if_true, if_false] at h
              all_goals
                first
                | exact (alGet_alSet_isSome _ _ _ _ h).resolve_right hd
                | exact alGet_alModify_isSome _ _ _ _ h
                | exact (alGet_alSet_isSome _ _ _ _ (alGet_alModify_isSome _ _ _ _ h)).resolve_right hd
                | exact alGet_alModify_isSome _ _ _ _ (alGet_alModify_isSome _ _ _ _ h)

lemma registerDevice_isSome_self (now deviceId : String) (info : Option PyDict)
    (r : DeviceRegistry) (h : deviceId ∉ r.deleted) :
    (alGet (registerDevice now deviceId info r).2.devices deviceId).isSome := by
  unfold registerDevice
  simp only [h, if_false, if_neg]
  cases hg : alGet r.devices deviceId <;>
    cases info with
    | none =>
        simp only [hg]
        first
        | simp [alGet_alSet_self]
        | simp [alGet_alModify_self, hg]
    | some i =>
        simp only [hg]
        by_cases hi : i.isEmpty <;> simp only [hi, if_true, if_false]
        all_goals simp [alGet_alModify_self, alGet_alSet_self, hg]

lemma updateDevice_deleted (now deviceId : String) (updates : PyDict)
    (r : DeviceRegistry) :
    (updateDevice now deviceId updates r).registry.deleted = r.deleted := by
  unfold updateDevice
  cases hg : alGet r.devices deviceId with
  | some rec0 =>
      simp only [hg]
      cases happ : applyUpdates rec0 updates <;> simp [happ, UpdateResult.registry]
  | none =>
      simp only [hg]
      by_cases hok : (registerDevice now deviceId Option.none r).1
      · simp only [hok, if_true]
        cases hg2 : alGet (registerDevice now deviceId Option.none r).2.devices deviceId with
        | none => simp [UpdateResult.registry, registerDevice_deleted]
        | some rec =>
            simp only [hg2]
            cases happ : applyUpdates rec updates <;>
              simp [happ, UpdateResult.registry, registerDevice_deleted]
      · simp [hok, UpdateResult.registry]

lemma updateDevice_keys (now deviceId : String) (updates : PyDict)
    (r : DeviceRegistry) (d : String)
    (h : (alGet (updateDevice now deviceId updates r).registry.devices d).isSome) :
    (alGet r.devices d).isSome ∨ (d = deviceId ∧ deviceId ∉ r.deleted) := by
  unfold updateDevice at h
  cases hg : alGet r.devices deviceId with
  | some rec0 =>
      simp only [hg] at h
      cases happ : applyUpdates rec0 updates <;>
        simp only [happ, UpdateResult.registry] at h
      all_goals
        by_cases hd : d = deviceId
        · subst hd; exact Or.inl (by simp [hg])
        · rw [alGet_alSet_ne _ _ _ _ hd] at h; exact Or.inl h
  | none =>
      simp only [hg] at h
      by_cases hok : (registerDevice now deviceId Option.none r).1
      · simp only [hok, if_true] at h
        have hdel : deviceId ∉ r.deleted := by
          intro hmem
          rw [registerDevice_of_deleted hmem] at hok
          simp at hok
        cases hg2 : alGet (registerDevice now deviceId Option.none r).2.devices deviceId with
        | none =>
            simp only [hg2, UpdateResult.registry] at h
            exact registerDevice_keys now deviceId Option.none r d h
        | some rec =>
            simp only [hg2] at h
            cases happ : applyUpdates rec updates <;>
              simp only [happ, UpdateResult.registry] at h
            all_goals
              by_cases hd : d = deviceId
              · exact Or.inr ⟨hd, hdel⟩
              · rw [alGet_alSet_ne _ _ _ _ hd] at h
                exact registerDevice_keys now deviceId Option.none r d h
      · simp only [hok, if_false, UpdateResult.registry] at h
        exact Or.inl h

lemma markOffline_deleted (deviceId : String) (r : DeviceRegistry) :
    (markOffline deviceId r).deleted = r.deleted := by
  unfold markOffline
  cases alGet r.devices deviceId <;> simp

lemma markOffline_keys (deviceId : String) (r : DeviceRegistry) (d : String)
    (h : (alGet (markOffline deviceId r).devices d).isSome) :
    (alGet r.devices d).isSome := by
  unfold markOffline at h
  cases hg : alGet r.devices deviceId <;> simp only [hg] at h
  · exact h
  · exact alGet_alModify_isSome _ _ _ _ h

lemma removeDevice_deleted_mem (deviceId : String) (r : DeviceRegistry) (d : String)
    (h : d ∈ (removeDevice deviceId r).deleted) : d ∈ r.deleted ∨ d = deviceId := by
  unfold removeDevice at h
  by_cases hm : deviceId ∈ r.deleted <;> simp [hm] at h
  · exact Or.inl h
  · rcases h with h | h
    · exact Or.inl h
    · exact Or.inr h

lemma removeDevice_deleted_self (deviceId : String) (r : DeviceRegistry) :
    deviceId ∈ (removeDevice deviceId r).deleted := by
  unfold removeDevice
  by_cases hm : deviceId ∈ r.deleted <;> simp [hm]

lemma mem_deleted_applyOp (d : String) (r : DeviceRegistry) (op : Op)
    (h : d ∈ r.deleted) (h1 : op ≠ Op.clearDeleted d) (h2 : op ≠ Op.clearAllDeleted) :
    d ∈ (applyOp r op).deleted := by
  cases op with
  | register now i info => simpa [applyOp, registerDevice_deleted] using h
  | update now i updates => simpa [applyOp, updateDevice_deleted] using h
  | markOffline i => simpa [applyOp, markOffline_deleted] using h
  | remove i =>
      simp only [applyOp]
      unfold removeDevice
      by_cases hm : i ∈ r.deleted <;> simp [hm, h]
  | clearDeleted i =>
      have hne : d ≠ i := by
        intro hd
        exact h1 (by rw [hd])
      simp [applyOp, clearDeleted, List.mem_filter, h, hne]
  | clearAllDeleted => exact absurd rfl h2

lemma regInv_init : RegInv DeviceRegistry.init := by
  intro d h
  simp [DeviceRegistry.init, alGet] at h

lemma regInv_applyOp {r : DeviceRegistry} (hInv : RegInv r) (op : Op) :
    RegInv (applyOp r op) := by
  cases op with
  | register now i info =>
      intro d h hmem
      rw [show applyOp r (Op.register now i info) = (registerDevice now i info r).2 from rfl,
        registerDevice_deleted] at hmem
      rcases registerDevice_keys now i info r d h with hold | ⟨hd, hdel⟩
      · exact hInv d hold hmem
      · exact hdel (hd ▸ hmem)
  | update now i updates =>
      intro d h hmem
      rw [show applyOp r (Op.update now i updates) = (updateDevice now i updates r).registry
            from rfl, updateDevice_deleted] at hmem
      rcases updateDevice_keys now i updates r d h with hold | ⟨hd, hdel⟩
      · exact hInv d hold hmem
      · exact hdel (hd ▸ hmem)
  | markOffline i =>
      intro d h hmem
      rw [show applyOp r (Op.markOffline i) = markOffline i r from rfl,
        markOffline_deleted] at hmem
      exact hInv d (markOffline_keys i r d h) hmem
  | remove i =>
      intro d h hmem
      have hk : (alGet (alPop r.devices i) d).isSome := h
      rcases alGet_alPop_isSome r.devices i d hk with ⟨hold, hne⟩
      rcases removeDevice_deleted_mem i r d hmem with hmem' | hd
      · exact hInv d hold hmem'
      · exact hne hd
  | clearDeleted i =>
      intro d h hmem
      have : d ∈ r.deleted := (List.mem_filter.mp hmem).1
      exact hInv d h this
  | clearAllDeleted =>
      intro d h hmem
      simp [applyOp, clearAllDeleted] at hmem

lemma regInv_foldl (ops : List Op) :
    ∀ r : DeviceRegistry, RegInv r → RegInv (ops.foldl applyOp r) := by
  induction ops with
  | nil => intro r h; exact h
  | cons op rest ih =>
      intro r h
      exact ih (applyOp r op) (regInv_applyOp h op)

lemma registerDevice_fst_true {now deviceId : String} {info : Option PyDict}
    {r : DeviceRegistry} (h : deviceId ∉ r.deleted) :
    (registerDevice now deviceId info r).1 = true := by
  unfold registerDevice
  simp [h]

lemma updateDevice_of_deleted {now deviceId : String} {updates : PyDict}
    {r : DeviceRegistry} (hget : alGet r.devices deviceId = Option.none)
    (hdel : deviceId ∈ r.deleted) :
    updateDevice now deviceId updates r = .ret false r := by
  unfold updateDevice
  simp [hget, registerDevice_of_deleted hdel]

lemma not_mem_clearDeleted_self (deviceId : String) (r : DeviceRegistry) :
    deviceId ∉ (clearDeleted deviceId r).deleted := by
  simp [clearDeleted, List.mem_filter]

lemma deleted_persists (d : String) (ops : List Op) :
    ∀ r : DeviceRegistry, d ∈ r.deleted →
      (∀ op ∈ ops, op ≠ Op.clearDeleted d ∧ op ≠ Op.clearAllDeleted) →
      d ∈ (ops.foldl applyOp r).deleted := by
  induction ops with
  | nil => intro r h _; exact h
  | cons op rest ih =>
      intro r h hops
      have hop := hops op (List.mem_cons_self op rest)
      exact ih (applyOp r op) (mem_deleted_applyOp d r op h hop.1 hop.2)
        (fun o ho => hops o (List.mem_cons_of_mem op ho))

/-! ## Claim theorems -/

/-- C1: after `remove_device(d)`, `register_device(d, …)` and
`update_device(d, …)` return not-accepted and leave the registry (device map
included) entirely unchanged; the rejection persists across any operation
sequence that contains neither `clear_deleted(d)` nor `clear_all_deleted()`;
and after `clear_deleted(d)` or `clear_all_deleted()`, `register_device(d)`
is accepted again. -/
theorem tombstone_blocks_reregistration (r : DeviceRegistry)
    (d now now' now'' : String) (info info' : Option PyDict) (u : PyDict) :
    registerDevice now d info (removeDevice d r) = (false, removeDevice d r) ∧
    updateDevice now' d u (removeDevice d r) = .ret false (removeDevice d r) ∧
    (∀ ops : List Op, (∀ op ∈ ops, op ≠ Op.clearDeleted d ∧ op ≠ Op.clearAllDeleted) →
      d ∈ (ops.foldl applyOp (removeDevice d r)).deleted ∧
      registerDevice now'' d info' (ops.foldl applyOp (removeDevice d r)) =
        (false, ops.foldl applyOp (removeDevice d r))) ∧
    (registerDevice now'' d info' (clearDeleted d (removeDevice d r))).1 = true ∧
    (registerDevice now'' d info' (clearAllDeleted (removeDevice d r))).1 = true := by
  have hdel : d ∈ (removeDevice d r).deleted := removeDevice_deleted_self d r
  have hget : alGet (removeDevice d r).devices d = Option.none := alGet_alPop_self r.devices d
  refine ⟨registerDevice_of_deleted hdel, updateDevice_of_deleted hget hdel, ?_, ?_, ?_⟩
  · intro ops hops
    have hmem := deleted_persists d ops (removeDevice d r) hdel hops
    exact ⟨hmem, registerDevice_of_deleted hmem⟩
  · exact registerDevice_fst_true (not_mem_clearDeleted_self d (removeDevice d r))
  · exact registerDevice_fst_true (by simp [clearAllDeleted])

/-- Witness for C1 at a concrete registry holding `dev1`, with the
intervening operation sequence `[mark_offline dev1, register dev2]`. -/
theorem tombstone_blocks_reregistration_witness :
    registerDevice "t1" "dev1" Option.none
        (removeDevice "dev1" (registerDevice "t0" "dev1" Option.none DeviceRegistry.init).2) =
      (false, removeDevice "dev1" (registerDevice "t0" "dev1" Option.none DeviceRegistry.init).2) ∧
    "dev1" ∈
      (([Op.markOffline "dev1", Op.register "t2" "dev2" Option.none]).foldl applyOp
        (removeDevice "dev1" (registerDevice "t0" "dev1" Option.none DeviceRegistry.init).2)).deleted ∧
    (registerDevice "t3" "dev1" Option.none
        (clearDeleted "dev1"
          (removeDevice "dev1" (registerDevice "t0" "dev1" Option.none DeviceRegistry.init).2))).1 =
      true := by
  have h := tombstone_blocks_reregistration
    (registerDevice "t0" "dev1" Option.none DeviceRegistry.init).2
    "dev1" "t1" "tu" "t3" Option.none Option.none [("type", Val.str "x")]
  refine ⟨h.1, ?_, h.2.2.2.1⟩
  have h3 := h.2.2.1 [Op.markOffline "dev1", Op.register "t2" "dev2" Option.none] ?_
  · exact h3.1
  · intro op hop
    simp only [List.mem_cons, List.not_mem_nil, or_false] at hop
    rcases hop with hop | hop <;> subst hop <;> exact ⟨by simp, by simp⟩

/-- C9: from a fresh `DeviceRegistry`, after any sequence of
`register_device`, `update_device`, `mark_offline`, `remove_device`,
`clear_deleted` and `clear_all_deleted` operations, no device id is both a
key of the device map and a member of the tombstone set. -/
theorem registry_devices_tombstones_disjoint (ops : List Op) (d : String)
    (h : (alGet (runOps ops).devices d).isSome) : d ∉ (runOps ops).deleted := by
  exact regInv_foldl ops DeviceRegistry.init regInv_init d h

/-- Witness for C9: a concrete sequence that deletes `dev1` and then
registers `dev2`; `dev2` is live, hence not tombstoned. -/
theorem registry_devices_tombstones_disjoint_witness :
    "dev2" ∉
      (runOps [Op.register "t0" "dev1" Option.none, Op.remove "dev1",
        Op.register "t1" "dev2" Option.none]).deleted := by
  exact registry_devices_tombstones_disjoint
    [Op.register "t0" "dev1" Option.none, Op.remove "dev1",
      Op.register "t1" "dev2" Option.none] "dev2" (by rfl)

/-- C3: `_topic_matches`: `ns/+/status` matches `ns/abc/status` but not
`ns/abc/def/status`; `ns/#` matches both; and any pattern/topic pair with
different segment counts and no `#` segment in the pattern is no match. -/
theorem topic_matcher_spec :
    topicMatches "ns/+/status" "ns/abc/status" = true ∧
    topicMatches "ns/+/status" "ns/abc/def/status" = false ∧
    topicMatches "ns/#" "ns/abc/status" = true ∧
    topicMatches "ns/#" "ns/abc/def/status" = true ∧
    ∀ pattern topic : String,
      (splitSlash pattern).length ≠ (splitSlash topic).length →
      "#" ∉ splitSlash pattern →
      topicMatches pattern topic = false := by
  refine ⟨rfl, rfl, rfl, rfl, ?_⟩
  intro pattern topic h1 h2
  simp only [topicMatches]
  exact if_pos ⟨h1, h2⟩

/-- Witness for C3's quantified part: `ns/+` (two segments, no `#`) against
a three-segment topic. -/
theorem topic_matcher_spec_witness :
    topicMatches "ns/+" "ns/abc/status" = false := by
  exact topic_matcher_spec.2.2.2.2 "ns/+" "ns/abc/status" (by decide) (by decide)

/-! ## Counting lemmas for the broadcaster -/

lemma wsDisconnect_eq_erase {α : Type} [DecidableEq α] (L : List α) (d : α) :
    wsDisconnect L d = L.erase d := by
  unfold wsDisconnect
  by_cases h : d ∈ L
  · simp [h]
  · simp [h, List.erase_of_not_mem h]

lemma count_foldl_wsDisconnect {α : Type} [DecidableEq α] (D : List α) :
    ∀ (L : List α) (c : α),
      ((D.foldl (fun acc d => wsDisconnect acc d) L).count c) = L.count c - D.count c := by
  induction D with
  | nil => simp
  | cons d rest ih =>
      intro L c
      simp only [List.foldl_cons]
      rw [ih, wsDisconnect_eq_erase, List.count_erase, List.count_cons]
      by_cases hcd : c = d
      · subst hcd; simp; omega
      · have hdc : ¬ d = c := fun h => hcd h.symm
        have h1 : (c == d) = false := by simp [hcd]
        have h2 : (d == c) = false := by simp [hdc]
        simp [h1, h2]

lemma count_filter_of_pos {α : Type} [DecidableEq α] (p : α → Bool) (c : α)
    (hp : p c = true) : ∀ L : List α, (L.filter p).count c = L.count c := by
  intro L
  induction L with
  | nil => simp
  | cons a L ih =>
      by_cases hpa : p a = true
      · simp [List.filter_cons, hpa, List.count_cons, ih]
      · have hca : ¬ c = a := fun h => hpa (h ▸ hp)
        simp [List.filter_cons, hpa, List.count_cons, ih, hca]

lemma count_filter_of_neg {α : Type} [DecidableEq α] (p : α → Bool) (c : α)
    (hp : p c = false) : ∀ L : List α, (L.filter p).count c = 0 := by
  intro L
  induction L with
  | nil => simp
  | cons a L ih =>
      by_cases hpa : p a = true
      · have hca : ¬ c = a := fun h => by rw [h, hpa] at hp; cases hp
        simp [List.filter_cons, hpa, List.count_cons, ih, hca]
      · simp [List.filter_cons, hpa, ih]

/-- C6: `broadcast` attempts delivery to every live subscriber in order
(failures included), a failed subscriber is removed by the post-round
cleanup and so is absent afterwards, and subscribers whose delivery
succeeded are all still present. -/
theorem broadcast_failure_isolation {α : Type} [DecidableEq α]
    (conns : List α) (ok : α → Bool) :
    (broadcastRound conns ok).1 = conns ∧
    (∀ c, ok c = false → c ∉ (broadcastRound conns ok).2) ∧
    (∀ c, c ∈ conns → ok c = true → c ∈ (broadcastRound conns ok).2) := by
  refine ⟨rfl, ?_, ?_⟩
  · intro c hc
    have hcount : ((broadcastRound conns ok).2).count c = 0 := by
      show ((conns.filter (fun c => !ok c)).foldl (fun acc c => wsDisconnect acc c) conns).count c = 0
      rw [count_foldl_wsDisconnect]
      rw [count_filter_of_pos (fun c => !ok c) c (by simp [hc])]
      omega
    exact List.count_eq_zero.mp hcount
  · intro c hm hc
    have hcount : ((broadcastRound conns ok).2).count c = conns.count c := by
      show ((conns.filter (fun c => !ok c)).foldl (fun acc c => wsDisconnect acc c) conns).count c
        = conns.count c
      rw [count_foldl_wsDisconnect]
      rw [count_filter_of_neg (fun c => !ok c) c (by simp [hc])]
      omega
    have hpos : 0 < conns.count c := List.count_pos_iff.mpr hm
    exact List.count_pos_iff.mp (hcount ▸ hpos)

/-- Witness for C6: three subscribers where the middle one fails; all three
are attempted, the failed one is gone, the other two remain. -/
theorem broadcast_failure_isolation_witness :
    (broadcastRound [1, 2, 3] (fun c => c ≠ 2)).1 = [1, 2, 3] ∧
    2 ∉ (broadcastRound [1, 2, 3] (fun c => c ≠ 2)).2 ∧
    1 ∈ (broadcastRound [1, 2, 3] (fun c => (c : ℕ) ≠ 2)).2 := by
  have h := broadcast_failure_isolation [1, 2, 3] (fun c => (c : ℕ) ≠ 2)
  exact ⟨h.1, h.2.1 2 (by decide), h.2.2 1 (by decide) (by decide)⟩

/-- C7 counterexample: with a connected bridge whose underlying
`client.publish` raises, `clear_retained` propagates the exception to its
caller instead of swallowing it (the method body has no `try`/`except`;
the swallowing the spec describes happens at the call site in
`routes.delete_device`). -/
theorem clear_retained_propagates_counterexample :
    clearRetained ⟨true, true⟩ "ble-sim/dev1/status" (Except.error "publish failed")
      = Except.error "publish failed" := rfl

/-- C7 amended: `clear_retained` returns without publishing anything when the
bridge is disconnected or has no client; when connected it performs the
single empty retained publish directly, and the outcome of the underlying
publish — success or raised exception — is passed through unchanged to the
caller. -/
theorem clear_retained_amended (st : BridgeState) (topic : String)
    (o : Except String Unit) :
    (st.connected = false ∨ st.hasClient = false → clearRetained st topic o = .ok []) ∧
    (st.connected = true → st.hasClient = true →
      clearRetained st topic o = o.map (fun _ => [⟨topic, "", true⟩])) := by
  constructor
  · intro h
    unfold clearRetained
    rcases h with h | h <;> simp [h]
  · intro h1 h2
    unfold clearRetained
    cases o <;> simp [h1, h2, Except.map]

/-- Witness for C7's amended theorem: a disconnected bridge returns without
effect; a connected bridge passes a publish success through. -/
theorem clear_retained_amended_witness :
    clearRetained ⟨false, false⟩ "t" (Except.ok ()) = .ok [] ∧
    clearRetained ⟨true, true⟩ "t" (Except.ok ())
      = (Except.ok () : Except String Unit).map (fun _ => [⟨"t", "", true⟩]) := by
  exact ⟨(clear_retained_amended ⟨false, false⟩ "t" (Except.ok ())).1 (Or.inl rfl),
    (clear_retained_amended ⟨true, true⟩ "t" (Except.ok ())).2 rfl rfl⟩

/-- C5: `set_target` on a device whose simulation is disabled (or that has no
simulation state yet) emits exactly one value through `_send_hr`, equal to
the target; on a device whose simulation is enabled it emits nothing. -/
theorem set_target_direct_passthrough (devs : List (String × HRDeviceState))
    (freshPhase : ℚ) (deviceId : String) (target : Int) :
    ((alGet devs deviceId = Option.none ∨
        (∃ st : HRDeviceState, alGet devs deviceId = some st ∧ st.enabled = false)) →
      (setTarget devs freshPhase deviceId target).2 = [target]) ∧
    (∀ st : HRDeviceState, alGet devs deviceId = some st → st.enabled = true →
      (setTarget devs freshPhase deviceId target).2 = []) := by
  constructor
  · intro h
    unfold setTarget
    rcases h with h | ⟨st, hst, hen⟩
    · simp [h, alGet_alSet_self]
    · simp [hst, alGet_alSet_self, hen]
  · intro st hst hen
    unfold setTarget
    simp [hst, alGet_alSet_self, hen]

/-- Witness for C5: a fresh device emits its target once; an
enabled device emits nothing. -/
theorem set_target_direct_passthrough_witness :
    (setTarget [] 0 "dev1" 70).2 = [70] ∧
    (setTarget [("dev1", ⟨70, 70, 0, true⟩)] 0 "dev1" 80).2 = [] := by
  exact ⟨(set_target_direct_passthrough [] 0 "dev1" 70).1 (Or.inl rfl),
    (set_target_direct_passthrough [("dev1", ⟨70, 70, 0, true⟩)] 0 "dev1" 80).2
      ⟨70, 70, 0, true⟩ rfl rfl⟩

/-- C4: each tick of `_variation_loop`: the ideal value is the target plus
the sinusoidal offset plus the random perturbation; when the gap to the
tracked value exceeds 3 the tracked value moves by exactly 1.0 toward the
ideal, otherwise by `(ideal - tracked) * 0.2`; the candidate is the tracked
value clamped to `[30, 220]` and rounded; and an emission fires iff the
rounded value differs from the last emitted value. -/
theorem variation_tick_spec (sinQ : ℚ → ℚ) (target : Int)
    (floatHR phase rand : ℚ) (lastSent : Option Int) :
    (variationTick sinQ target floatHR phase rand lastSent).phase = phase + 2/10 ∧
    (|((target : ℚ) + sinQ (phase + 2/10) * 2 + (rand - 5/10) * (6/10)) - floatHR| > 3 →
      (((target : ℚ) + sinQ (phase + 2/10) * 2 + (rand - 5/10) * (6/10)) > floatHR →
        (variationTick sinQ target floatHR phase rand lastSent).floatHR = floatHR + 1) ∧
      (((target : ℚ) + sinQ (phase + 2/10) * 2 + (rand - 5/10) * (6/10)) < floatHR →
        (variationTick sinQ target floatHR phase rand lastSent).floatHR = floatHR - 1)) ∧
    (|((target : ℚ) + sinQ (phase + 2/10) * 2 + (rand - 5/10) * (6/10)) - floatHR| ≤ 3 →
      (variationTick sinQ target floatHR phase rand lastSent).floatHR =
        floatHR + (((target : ℚ) + sinQ (phase + 2/10) * 2 + (rand - 5/10) * (6/10)) - floatHR)
          * (2/10)) ∧
    (variationTick sinQ target floatHR phase rand lastSent).currentHR =
      pyRound (max 30 (min 220 (variationTick sinQ target floatHR phase rand lastSent).floatHR)) ∧
    ((variationTick sinQ target floatHR phase rand lastSent).emit = true ↔
      some (variationTick sinQ target floatHR phase rand lastSent).currentHR ≠ lastSent) := by
  refine ⟨rfl, ?_, ?_, rfl, by simp [variationTick]⟩
  · intro hgap
    constructor
    · intro hdir
      show (if |((target : ℚ) + sinQ (phase + 2/10) * 2 + (rand - 5/10) * (6/10)) - floatHR| > 3
          then floatHR + (if ((target : ℚ) + sinQ (phase + 2/10) * 2 + (rand - 5/10) * (6/10))
              > floatHR then (1 : ℚ) else -1)
          else floatHR + (((target : ℚ) + sinQ (phase + 2/10) * 2 + (rand - 5/10) * (6/10))
              - floatHR) * (2/10)) = floatHR + 1
      rw [if_pos hgap, if_pos hdir]
    · intro hdir
      have hnd : ¬ ((target : ℚ) + sinQ (phase + 2/10) * 2 + (rand - 5/10) * (6/10)) > floatHR :=
        not_lt.mpr (le_of_lt hdir)
      show (if |((target : ℚ) + sinQ (phase + 2/10) * 2 + (rand - 5/10) * (6/10)) - floatHR| > 3
          then floatHR + (if ((target : ℚ) + sinQ (phase + 2/10) * 2 + (rand - 5/10) * (6/10))
              > floatHR then (1 : ℚ) else -1)
          else floatHR + (((target : ℚ) + sinQ (phase + 2/10) * 2 + (rand - 5/10) * (6/10))
              - floatHR) * (2/10)) = floatHR - 1
      rw [if_pos hgap, if_neg hnd]
      ring
  · intro hgap
    have hng : ¬ |((target : ℚ) + sinQ (phase + 2/10) * 2 + (rand - 5/10) * (6/10)) - floatHR| > 3 :=
      not_lt.mpr hgap
    show (if |((target : ℚ) + sinQ (phase + 2/10) * 2 + (rand - 5/10) * (6/10)) - floatHR| > 3
        then floatHR + (if ((target : ℚ) + sinQ (phase + 2/10) * 2 + (rand - 5/10) * (6/10))
            > floatHR then (1 : ℚ) else -1)
        else floatHR + (((target : ℚ) + sinQ (phase + 2/10) * 2 + (rand - 5/10) * (6/10))
            - floatHR) * (2/10)) =
      floatHR + (((target : ℚ) + sinQ (phase + 2/10) * 2 + (rand - 5/10) * (6/10)) - floatHR)
        * (2/10)
    rw [if_neg hng]

/-- Witness for C4: a zero sine, target 70, tracked value 60 (gap 10 > 3,
ideal above): the tracked value steps up by exactly 1. -/
theorem variation_tick_spec_witness :
    (variationTick (fun _ => 0) 70 60 0 (5/10) (some 61)).floatHR = 60 + 1 ∧
    (variationTick (fun _ => 0) 70 60 0 (5/10) (some 61)).emit = false := by
  have hfl : (variationTick (fun _ => 0) 70 60 0 (5/10) (some 61)).floatHR = 60 + 1 :=
    ((variation_tick_spec (fun _ => 0) 70 60 0 (5/10) (some 61)).2.1
      (by norm_num)).1 (by norm_num)
  refine ⟨hfl, ?_⟩
  have hcur : (variationTick (fun _ => 0) 70 60 0 (5/10) (some 61)).currentHR = 61 := by
    rw [(variation_tick_spec (fun _ => 0) 70 60 0 (5/10) (some 61)).2.2.2.1, hfl]
    rw [show max (30 : ℚ) (min 220 (60 + 1)) = 61 by norm_num]
    unfold pyRound
    rw [show ⌊(61 : ℚ)⌋ = 61 by norm_num]
    norm_num
  have hiff := (variation_tick_spec (fun _ => 0) 70 60 0 (5/10) (some 61)).2.2.2.2
  rw [hcur] at hiff
  simp only [ne_eq, not_true_eq_false, iff_false] at hiff
  cases hemit : (variationTick (fun _ => 0) 70 60 0 (5/10) (some 61)).emit
  · rfl
  · exact absurd hemit hiff

/-- C2: in `update_device`, a `values` entry holding a dict is merged
key-by-key into the record's existing values dict (created if absent or
falsy), leaving every other record field untouched; any other entry
overwrites its field; and the spec's example: updating `values` with
`{a: 1}` and then `{b: 2}` yields `values == {a: 1, b: 2}`. -/
theorem update_device_values_merge :
    (∀ rec vd cur : PyDict,
      (alGet rec "values" = some (Val.dict cur) ∨
        (alGet rec "values" = Option.none ∧ cur = [])) →
      ∃ rec' : PyDict,
        applyUpdateEntry rec "values" (Val.dict vd) = .ok rec' ∧
        alGet rec' "values" = some (Val.dict (dictUpdate cur vd)) ∧
        ∀ k : String, k ≠ "values" → alGet rec' k = alGet rec k) ∧
    (∀ (rec : PyDict) (k : String) (v : Val), ¬ (k = "values" ∧ v.isDict = true) →
      applyUpdateEntry rec k v = .ok (alSet rec k v)) ∧
    (alGet
        (updateDevice "t2" "d" [("values", Val.dict [("b", Val.int 2)])]
          (updateDevice "t1" "d" [("values", Val.dict [("a", Val.int 1)])]
            (registerDevice "t0" "d" Option.none DeviceRegistry.init).2).registry).registry.devices
        "d").bind (fun rec => alGet rec "values")
      = some (Val.dict [("a", Val.int 1), ("b", Val.int 2)]) := by
  refine ⟨?_, ?_, rfl⟩
  · intro rec vd cur h
    have hcond : ("values" : String) = "values" ∧ (Val.dict vd).isDict = true := ⟨rfl, rfl⟩
    rcases h with hcur | ⟨habs, hnil⟩
    · by_cases hemp : cur.isEmpty
      · have hnil : cur = [] := by
          cases cur with
          | nil => rfl
          | cons a l => simp [List.isEmpty] at hemp
        subst hnil
        refine ⟨alSet (alSet rec "values" (Val.dict [])) "values"
            (Val.dict (dictUpdate [] vd)), ?_, ?_, ?_⟩
        · unfold applyUpdateEntry
          rw [if_pos hcond]
          simp [hcur, Val.truthy, alGet_alSet_self, Val.entriesD]
        · rw [alGet_alSet_self]
        · intro k hk
          rw [alGet_alSet_ne _ _ _ _ hk, alGet_alSet_ne _ _ _ _ hk]
      · refine ⟨alSet rec "values" (Val.dict (dictUpdate cur vd)), ?_, ?_, ?_⟩
        · unfold applyUpdateEntry
          rw [if_pos hcond]
          simp [hcur, Val.truthy, hemp, Val.entriesD]
        · rw [alGet_alSet_self]
        · intro k hk
          rw [alGet_alSet_ne _ _ _ _ hk]
    · subst hnil
      refine ⟨alSet (alSet rec "values" (Val.dict [])) "values"
          (Val.dict (dictUpdate [] vd)), ?_, ?_, ?_⟩
      · unfold applyUpdateEntry
        rw [if_pos hcond]
        simp [habs, alGet_alSet_self, Val.entriesD]
      · rw [alGet_alSet_self]
      · intro k hk
        rw [alGet_alSet_ne _ _ _ _ hk, alGet_alSet_ne _ _ _ _ hk]
  · intro rec k v h
    unfold applyUpdateEntry
    rw [if_neg h]

/-- Witness for C2's overwrite clause: a `type` entry overwrites in place. -/
theorem update_device_values_merge_witness :
    applyUpdateEntry [("type", Val.none)] "type" (Val.str "heart_rate")
      = .ok (alSet [("type", Val.none)] "type" (Val.str "heart_rate")) := by
  exact update_device_values_merge.2.1 [("type", Val.none)] "type" (Val.str "heart_rate")
    (fun h => absurd h.1 (by decide))

/-! ## Lemmas for the `register_device` info merge -/

lemma alGet_eq_none_of_not_mem_keys (e : PyDict) (k : String)
    (h : k ∉ e.map Prod.fst) : alGet e k = Option.none := by
  induction e with
  | nil => rfl
  | cons kv rest ih =>
      simp only [List.map_cons, List.mem_cons] at h
      push_neg at h
      have hne : ¬ kv.1 = k := fun hh => h.1 hh.symm
      simp [alGet, hne, ih h.2]

lemma alGet_dictUpdate_of_none (e : PyDict) (k : String)
    (h : alGet e k = Option.none) :
    ∀ d : PyDict, alGet (dictUpdate d e) k = alGet d k := by
  induction e with
  | nil => intro d; rfl
  | cons kv rest ih =>
      intro d
      have hne : ¬ kv.1 = k := by
        intro hh
        simp [alGet, hh] at h
      have htail : alGet rest k = Option.none := by
        simpa [alGet, hne] using h
      show alGet (dictUpdate (alSet d kv.1 kv.2) rest) k = alGet d k
      rw [ih htail, alGet_alSet_ne _ _ _ _ (fun hh => hne hh.symm)]

lemma alGet_dictUpdate_of_mem (e : PyDict) (k : String) (v : Val)
    (hnd : (e.map Prod.fst).Nodup) (h : alGet e k = some v) :
    ∀ d : PyDict, alGet (dictUpdate d e) k = some v := by
  induction e with
  | nil => simp [alGet] at h
  | cons kv rest ih =>
      intro d
      have hnd' : kv.1 ∉ rest.map Prod.fst ∧ (rest.map Prod.fst).Nodup := by
        rw [List.map_cons] at hnd
        exact List.nodup_cons.mp hnd
      show alGet (dictUpdate (alSet d kv.1 kv.2) rest) k = some v
      by_cases hk : kv.1 = k
      · have hv : v = kv.2 := by
          simp [alGet, hk] at h
          exact h.symm
        have hnotin : k ∉ rest.map Prod.fst := hk ▸ hnd'.1
        rw [alGet_dictUpdate_of_none rest k (alGet_eq_none_of_not_mem_keys rest k hnotin)]
        rw [← hk, alGet_alSet_self, hv]
      · have htail : alGet rest k = some v := by
          simpa [alGet, hk] using h
        exact ih hnd'.2 htail (alSet d kv.1 kv.2)

lemma registerDevice_get_info (now deviceId : String) (i : PyDict)
    (r : DeviceRegistry) (h : deviceId ∉ r.deleted) :
    alGet (registerDevice now deviceId (some i) r).2.devices deviceId
      = some (dictUpdate (registerBase now deviceId r) i) := by
  unfold registerDevice registerBase
  simp only [h, if_false, if_neg, not_false_iff]
  cases hg : alGet r.devices deviceId with
  | none =>
      by_cases hi : i.isEmpty
      · have : i = [] := by
          cases i with
          | nil => rfl
          | cons a l => simp [List.isEmpty] at hi
        subst this
        simp [hg, hi, alGet_alSet_self, dictUpdate]
      · simp [hg, hi, alGet_alModify_self, alGet_alSet_self]
  | some rec =>
      by_cases hi : i.isEmpty
      · have : i = [] := by
          cases i with
          | nil => rfl
          | cons a l => simp [List.isEmpty] at hi
        subst this
        simp [hg, hi, alGet_alModify_self, dictUpdate]
      · simp [hg, hi, alGet_alModify_self]

/-- C8 counterexample: registering `d` with `info = {values: {a: 1}}` and then
with `info = {values: {b: 2}}` leaves `values == {b: 2}` — `register_device`
applies `info` with a plain `dict.update`, replacing the `values` mapping
wholesale instead of merging `{a: 1, b: 2}` as the claim states. -/
theorem register_info_replaces_values_counterexample :
    (alGet
        (registerDevice "t1" "d" (some [("values", Val.dict [("b", Val.int 2)])])
          (registerDevice "t0" "d" (some [("values", Val.dict [("a", Val.int 1)])])
            DeviceRegistry.init).2).2.devices
        "d").bind (fun rec => alGet rec "values")
      = some (Val.dict [("b", Val.int 2)]) ∧
    some (Val.dict [("b", Val.int 2)])
      ≠ some (Val.dict [("a", Val.int 1), ("b", Val.int 2)]) := by
  refine ⟨rfl, ?_⟩
  intro h
  simp only [Option.some.injEq, Val.dict.injEq] at h
  exact absurd (congrArg List.length h) (by decide)

/-- C8 amended: `register_device` on a non-tombstoned id merges `info` into
the record as a plain field-by-field shallow overwrite — the whole record
becomes `dict.update(base, info)` — and in particular a `values` field in
`info` replaces the stored values mapping wholesale rather than being merged
key-by-key. -/
theorem register_info_shallow_overwrite (now deviceId : String) (i : PyDict)
    (r : DeviceRegistry) (h : deviceId ∉ r.deleted) :
    (registerDevice now deviceId (some i) r).1 = true ∧
    alGet (registerDevice now deviceId (some i) r).2.devices deviceId
      = some (dictUpdate (registerBase now deviceId r) i) ∧
    (∀ v : Val, (i.map Prod.fst).Nodup → alGet i "values" = some v →
      (alGet (registerDevice now deviceId (some i) r).2.devices deviceId).bind
        (fun rec => alGet rec "values") = some v) := by
  refine ⟨registerDevice_fst_true h, registerDevice_get_info now deviceId i r h, ?_⟩
  intro v hnd hv
  rw [registerDevice_get_info now deviceId i r h]
  show alGet (dictUpdate (registerBase now deviceId r) i) "values" = some v
  exact alGet_dictUpdate_of_mem i "values" v hnd hv _

/-- Witness for C8's amended theorem: a fresh registration with
`info = {values: {a: 1}}` is accepted and stores exactly that values dict. -/
theorem register_info_shallow_overwrite_witness :
    (registerDevice "t0" "d" (some [("values", Val.dict [("a", Val.int 1)])])
      DeviceRegistry.init).1 = true ∧
    (alGet (registerDevice "t0" "d" (some [("values", Val.dict [("a", Val.int 1)])])
        DeviceRegistry.init).2.devices "d").bind (fun rec => alGet rec "values")
      = some (Val.dict [("a", Val.int 1)]) := by
  have h := register_info_shallow_overwrite "t0" "d"
    [("values", Val.dict [("a", Val.int 1)])] DeviceRegistry.init
    (by simp [DeviceRegistry.init])
  exact ⟨h.1, h.2.2 (Val.dict [("a", Val.int 1)]) (by simp) rfl⟩

/-- C10: for a decoded status payload on `ble-sim/<id>/status` of a
non-tombstoned device, the handler writes `online`, `type`, `ble_started`,
`ip` and `firmware_version` into the record with the payload's values,
substituting the defaults `online=true`, `ble_started=false` and `None` for
the rest when absent; in particular a payload without `type` leaves the
record's `type` equal to `None` whatever it was before. -/
theorem status_handler_overwrites_with_defaults (now1 now2 topic deviceId : String)
    (data : PyDict) (r : DeviceRegistry)
    (htopic : splitSlash topic = ["ble-sim", deviceId, "status"])
    (hdel : deviceId ∉ r.deleted) :
    ∃ rec' : PyDict,
      alGet (handleDeviceStatus now1 now2 topic data r).devices deviceId = some rec' ∧
      alGet rec' "online" = some ((alGet data "online").getD (Val.bool true)) ∧
      alGet rec' "type" = some ((alGet data "type").getD Val.none) ∧
      alGet rec' "ble_started" = some ((alGet data "ble_started").getD (Val.bool false)) ∧
      alGet rec' "ip" = some ((alGet data "ip").getD Val.none) ∧
      alGet rec' "firmware_version" = some ((alGet data "firmware_version").getD Val.none) ∧
      (alGet data "type" = Option.none → alGet rec' "type" = some Val.none) := by
  obtain ⟨rec, hrec⟩ := Option.isSome_iff_exists.mp
    (registerDevice_isSome_self now1 deviceId Option.none r hdel)
  have happ : applyUpdates rec (statusUpdateData data) =
      .ok (alSet (alSet (alSet (alSet (alSet rec
        "online" ((alGet data "online").getD (Val.bool true)))
        "type" ((alGet data "type").getD Val.none))
        "ble_started" ((alGet data "ble_started").getD (Val.bool false)))
        "ip" ((alGet data "ip").getD Val.none))
        "firmware_version" ((alGet data "firmware_version").getD Val.none)) := by
    simp [statusUpdateData, applyUpdates, applyUpdateEntry]
  have hhandle : handleDeviceStatus now1 now2 topic data r =
      { (registerDevice now1 deviceId Option.none r).2 with
        devices := alSet (registerDevice now1 deviceId Option.none r).2.devices deviceId
          (alSet (alSet (alSet (alSet (alSet (alSet rec
            "online" ((alGet data "online").getD (Val.bool true)))
            "type" ((alGet data "type").getD Val.none))
            "ble_started" ((alGet data "ble_started").getD (Val.bool false)))
            "ip" ((alGet data "ip").getD Val.none))
            "firmware_version" ((alGet data "firmware_version").getD Val.none))
            "last_seen" (Val.str now2)) } := by
    unfold handleDeviceStatus updateDevice
    simp [htopic, hrec, happ, UpdateResult.registry]
  refine ⟨alSet (alSet (alSet (alSet (alSet (alSet rec
      "online" ((alGet data "online").getD (Val.bool true)))
      "type" ((alGet data "type").getD Val.none))
      "ble_started" ((alGet data "ble_started").getD (Val.bool false)))
      "ip" ((alGet data "ip").getD Val.none))
      "firmware_version" ((alGet data "firmware_version").getD Val.none))
      "last_seen" (Val.str now2), ?_, ?_, ?_, ?_, ?_, ?_, ?_⟩
  · rw [hhandle]
    exact alGet_alSet_self _ _ _
  · simp [alGet_alSet_self, alGet_alSet_ne]
  · simp [alGet_alSet_self, alGet_alSet_ne]
  · simp [alGet_alSet_self, alGet_alSet_ne]
  · simp [alGet_alSet_self, alGet_alSet_ne]
  · simp [alGet_alSet_self, alGet_alSet_ne]
  · intro h
    simp [alGet_alSet_self, alGet_alSet_ne, h]

/-- Witness for C10: a device previously configured with
`type == "heart_rate"` receives a status payload carrying only `ip`;
its `type` field is overwritten with `None`. -/
theorem status_handler_overwrites_with_defaults_witness :
    (alGet
        (handleDeviceStatus "t2" "t3" "ble-sim/dev/status" [("ip", Val.str "10.0.0.5")]
          (updateDevice "t1" "dev" [("type", Val.str "heart_rate")]
            (registerDevice "t0" "dev" Option.none DeviceRegistry.init).2).registry).devices
        "dev").bind (fun rec => alGet rec "type")
      = some Val.none := by
  obtain ⟨rec', h1, _, h3, _⟩ := status_handler_overwrites_with_defaults "t2" "t3"
    "ble-sim/dev/status" "dev" [("ip", Val.str "10.0.0.5")]
    (updateDevice "t1" "dev" [("type", Val.str "heart_rate")]
      (registerDevice "t0" "dev" Option.none DeviceRegistry.init).2).registry
    (by rfl) (by decide)
  rw [h1]
  exact h3

end PyBTMCP
